import Mathlib

/-!
Verification of the Aesthetic Calculator engine
(`src/static/js/calculator.js`, class `Calculator`).

Modelling conventions:
* JavaScript numbers are modelled by exact rationals `ℚ`; `NaN` is modelled by
  `none` in `Option ℚ`.  IEEE-754 binary rounding is not modelled; all
  arithmetic is exact.  `Number.EPSILON = 2 ^ (-52)` is kept exactly.
* `currentInput` is a `String`, as in the source.  `previousInput` is
  `Option (Option ℚ)`: `none` models the empty-string sentinel `''`,
  `some none` a stored `NaN`, `some (some q)` a stored number `q`.
* `parseFloat` is modelled as a longest-prefix decimal parser
  (sign, digits, optional fraction); exponent forms, whitespace and
  `Infinity`, which never arise from the calculator's own strings in the
  exact model, are out of scope.
* `String(result)` (number-to-string on calculation results, which are
  always on the `10 ^ (-8)` grid after rounding) and
  `toLocaleString('en-US', {maximumFractionDigits: 8, useGrouping: false})`
  are both modelled by fixed-point decimal rendering with at most 8
  fraction digits and trailing zeros stripped; `toExponential(6)` is
  modelled by `toExponential6`.
* DOM side effects are reduced to the two display strings plus the
  `display-error` CSS class, kept as fields of the state.  The
  `setTimeout`-driven auto-reset in `showError` belongs to the collaborator
  layer (spec section 5) and is not part of the engine step.
-/

set_option allowUnsafeReducibility true in
attribute [semireducible] Rat.add Rat.sub Rat.mul Rat.inv Rat.ofScientific

namespace AC

/-- The four binary operators of the calculator (`data-action` values). -/
inductive Op where
  | add
  | subtract
  | multiply
  | divide
deriving DecidableEq

/-- `getOperatorSymbol` from the source. -/
def getOperatorSymbol : Op → String
  | Op.add => "+"
  | Op.subtract => "−"
  | Op.multiply => "×"
  | Op.divide => "÷"

/-- Split a character list into its maximal digit prefix and the rest. -/
def spanDigits : List Char → List Char × List Char
  | [] => ([], [])
  | c :: r =>
    if c.isDigit then
      let p := spanDigits r
      (c :: p.1, p.2)
    else ([], c :: r)

/-- Numeric value of a digit string (most significant first). -/
def digitsToNat (l : List Char) : ℕ :=
  l.foldl (fun a c => 10 * a + (c.toNat - 48)) 0

/-- Decimal digits of a natural number, most significant first; the first
argument is recursion fuel (one more than the number always suffices). -/
def natStrAux : ℕ → ℕ → List Char
  | 0, _ => []
  | fuel + 1, n =>
    if n < 10 then [Char.ofNat (48 + n)]
    else natStrAux fuel (n / 10) ++ [Char.ofNat (48 + n % 10)]

/-- Decimal rendering of a natural number. -/
def natStr (n : ℕ) : String := String.mk (natStrAux (n + 1) n)

/-- Drop trailing `'0'` characters. -/
def stripZeros (l : List Char) : List Char :=
  (List.dropWhile (fun c => c == '0') l.reverse).reverse

/-- Left-pad with `'0'` up to length `k`. -/
def padZeros (k : ℕ) (l : List Char) : List Char :=
  List.replicate (k - l.length) '0' ++ l

/-- JavaScript `parseFloat`, restricted to plain decimal notation: an
optional sign, then the longest prefix `digits [. digits]`; `none` models
`NaN` (no digit found at all). -/
def parseFloat (s : String) : Option ℚ :=
  let p : ℚ × List Char :=
    match s.data with
    | '-' :: r => (-1, r)
    | '+' :: r => (1, r)
    | l => (1, l)
  let ip := spanDigits p.2
  let fp : List Char :=
    match ip.2 with
    | '.' :: r => (spanDigits r).1
    | _ => []
  if ip.1.isEmpty ∧ fp.isEmpty then none
  else some (p.1 * ((digitsToNat ip.1 : ℚ) + (digitsToNat fp : ℚ) / 10 ^ fp.length))

/-- Fixed-point decimal rendering with at most 8 fraction digits (trailing
zeros stripped), rounding half away from zero; models both `String(result)`
for results on the `10 ^ (-8)` grid and the `toLocaleString` call of
`formatNumber`. -/
def renderFixed8 (q : ℚ) : String :=
  let m := (Rat.floor (|q| * 100000000 + 1 / 2)).toNat
  let ip := m / 100000000
  let fp := m % 100000000
  let frac := stripZeros (padZeros 8 (natStr fp).data)
  let core := if frac.isEmpty then natStr ip else String.mk ((natStr ip).data ++ '.' :: frac)
  if q < 0 ∧ m ≠ 0 then String.mk ('-' :: core.data) else core

/-- Exponent `e` with `10 ^ e ≤ q < 10 ^ (e + 1)`, for positive `q`. -/
def expBase10 (q : ℚ) : ℤ :=
  if 1 ≤ q then (Nat.log 10 (Rat.floor q).toNat : ℤ)
  else - ((Nat.log 10 ((Rat.ceil (1 / q)).toNat - 1) + 1 : ℕ) : ℤ)

/-- JavaScript `Number.prototype.toExponential(6)`. -/
def toExponential6 (q : ℚ) : String :=
  if q = 0 then "0.000000e+0"
  else
    let a := |q|
    let e0 := expBase10 a
    let m0 := Rat.floor (a * (10 : ℚ) ^ (6 - e0) + 1 / 2)
    let me := if m0 < 10 ^ 7 then (m0.toNat, e0) else ((m0 / 10).toNat, e0 + 1)
    let ds := padZeros 7 (natStr me.1).data
    let sgnStr := if q < 0 then "-" else ""
    let expStr :=
      if 0 ≤ me.2 then String.mk ('+' :: (natStr me.2.toNat).data)
      else String.mk ('-' :: (natStr (-me.2).toNat).data)
    sgnStr ++ String.mk (ds.take 1) ++ "." ++ String.mk (ds.drop 1) ++ "e" ++ expStr

/-- `formatNumber` from the source, on an already-parsed value
(`none` = `NaN`): `NaN` renders as `"0"`; magnitudes at least `1e10`, or
nonzero below `1e-6`, render exponentially; otherwise fixed-point with at
most 8 fraction digits. -/
def formatNumberVal (v : Option ℚ) : String :=
  match v with
  | none => "0"
  | some q =>
    if 10000000000 ≤ |q| ∨ (|q| < 1 / 1000000 ∧ q ≠ 0) then toExponential6 q
    else renderFixed8 q

/-- `formatNumber` applied to a string argument (it begins with
`parseFloat`). -/
def formatNumberStr (s : String) : String := formatNumberVal (parseFloat s)

/-- The mutable state of the `Calculator` class: the five state fields plus
the two display strings and the `display-error` class flag. -/
structure CalcState where
  currentInput : String
  previousInput : Option (Option ℚ)
  operator : Option Op
  waitingForOperand : Bool
  justCalculated : Bool
  displayPrimary : String
  displaySecondary : String
  primaryError : Bool
deriving DecidableEq

/-- `updateDisplay`: primary text becomes the formatted `currentInput` and
the error class is removed. -/
def updateDisplay (s : CalcState) : CalcState :=
  { s with displayPrimary := formatNumberStr s.currentInput, primaryError := false }

/-- `clearSecondaryDisplay`. -/
def clearSecondaryDisplay (s : CalcState) : CalcState :=
  { s with displaySecondary := "" }

/-- `updateSecondaryDisplay(showResult)`: when an operator and a previous
operand are present, show `"prev sym"` or, with `showResult`,
`"prev sym current ="`. -/
def updateSecondaryDisplay (showResult : Bool) (s : CalcState) : CalcState :=
  match s.operator, s.previousInput with
  | some op, some pv =>
    if showResult then
      { s with displaySecondary :=
          formatNumberVal pv ++ " " ++ getOperatorSymbol op ++ " " ++
            formatNumberStr s.currentInput ++ " =" }
    else
      { s with displaySecondary := formatNumberVal pv ++ " " ++ getOperatorSymbol op }
  | _, _ => s

/-- `showError(message)`: primary shows `"Error"` with the error class,
secondary shows the message.  (The delayed `clearAll` is collaborator-layer
and not part of the engine step.) -/
def showError (message : String) (s : CalcState) : CalcState :=
  { s with displayPrimary := "Error", primaryError := true, displaySecondary := message }

/-- `Number.EPSILON`. -/
def jsEpsilon : ℚ := 1 / 2 ^ 52

/-- `Math.round`: nearest integer, halves toward positive infinity. -/
def jsRound (q : ℚ) : ℤ := Rat.floor (q + 1 / 2)

/-- The rounding step of `performCalculation`:
`Math.round((result + Number.EPSILON) * 100000000) / 100000000`. -/
def roundResult (v : ℚ) : ℚ := (jsRound ((v + jsEpsilon) * 100000000) : ℚ) / 100000000

/-- `performCalculation`: parse both operands (`parseFloat('') = NaN`, and a
stored number re-parses to itself, so the previous operand is just
flattened); on `NaN` return `null` with no display change; apply the
pending operator, `showError` on division by zero, and round successful
results.  The returned state carries the `showError` side effect. -/
def performCalculation (s : CalcState) : CalcState × Option ℚ :=
  match s.previousInput, parseFloat s.currentInput with
  | some (some prev), some current =>
    match s.operator with
    | some Op.add => (s, some (roundResult (prev + current)))
    | some Op.subtract => (s, some (roundResult (prev - current)))
    | some Op.multiply => (s, some (roundResult (prev * current)))
    | some Op.divide =>
      if current = 0 then (showError "Cannot divide by zero" s, none)
      else (s, some (roundResult (prev / current)))
    | none => (s, none)
  | _, _ => (s, none)

/-- `inputNumber(digit)`. -/
def inputNumber (d : Char) (s : CalcState) : CalcState :=
  if s.waitingForOperand then
    updateDisplay { s with currentInput := String.mk [d], waitingForOperand := false }
  else if s.justCalculated then
    updateDisplay (clearSecondaryDisplay { s with currentInput := String.mk [d], justCalculated := false })
  else
    updateDisplay { s with currentInput :=
      if s.currentInput = "0" then String.mk [d] else s.currentInput ++ String.mk [d] }

/-- `inputDecimal()`; the third branch is guarded by
`indexOf('.') === -1`. -/
def inputDecimal (s : CalcState) : CalcState :=
  if s.waitingForOperand then
    updateDisplay { s with currentInput := "0.", waitingForOperand := false }
  else if s.justCalculated then
    updateDisplay (clearSecondaryDisplay { s with currentInput := "0.", justCalculated := false })
  else if s.currentInput.data.contains '.' then
    updateDisplay s
  else
    updateDisplay { s with currentInput := s.currentInput ++ "." }

/-- The unconditional tail of `handleOperator`: set `waitingForOperand`,
store the operator, clear `justCalculated`, refresh both displays. -/
def operatorTail (op : Op) (s : CalcState) : CalcState :=
  updateDisplay (updateSecondaryDisplay false
    { s with waitingForOperand := true, operator := some op, justCalculated := false })

/-- `handleOperator(nextOperator)`; on a `null` result of
`performCalculation` it returns early, skipping the tail. -/
def handleOperator (nextOperator : Op) (s : CalcState) : CalcState :=
  if s.previousInput.isNone then
    operatorTail nextOperator { s with previousInput := some (parseFloat s.currentInput) }
  else if s.operator.isSome && !s.waitingForOperand then
    match performCalculation s with
    | (s1, none) => s1
    | (s1, some result) =>
      operatorTail nextOperator
        { s1 with currentInput := renderFixed8 result, previousInput := some (some result) }
  else operatorTail nextOperator s

/-- `calculate()` (the equals handler). -/
def calculate (s : CalcState) : CalcState :=
  if s.operator.isSome && s.previousInput.isSome && !s.waitingForOperand then
    match performCalculation s with
    | (s1, none) => s1
    | (s1, some result) =>
      let s2 := updateSecondaryDisplay true s1
      updateDisplay
        { s2 with currentInput := renderFixed8 result, previousInput := none,
                  operator := none, waitingForOperand := false, justCalculated := true }
  else s

/-- `clear()` (clear-entry). -/
def clear (s : CalcState) : CalcState :=
  updateDisplay { s with currentInput := "0" }

/-- `clearAll()`. -/
def clearAll (s : CalcState) : CalcState :=
  updateDisplay (clearSecondaryDisplay
    { s with currentInput := "0", previousInput := none, operator := none,
             waitingForOperand := false, justCalculated := false })

/-- `backspace()`. -/
def backspace (s : CalcState) : CalcState :=
  if s.justCalculated then s
  else if 1 < s.currentInput.length then
    updateDisplay { s with currentInput := String.mk s.currentInput.data.dropLast }
  else
    updateDisplay { s with currentInput := "0" }

/-- The semantic event vocabulary delivered by the input adapter. -/
inductive Event where
  | digit (d : Fin 10)
  | point
  | oper (o : Op)
  | equals
  | clearEntry
  | clearAllEv
  | back
deriving DecidableEq

/-- The character a digit button carries. -/
def digitChar (d : Fin 10) : Char := Char.ofNat (48 + d.val)

/-- One engine step: dispatch of `handleAction` / `inputNumber`. -/
def step (s : CalcState) : Event → CalcState
  | Event.digit d => inputNumber (digitChar d) s
  | Event.point => inputDecimal s
  | Event.oper o => handleOperator o s
  | Event.equals => calculate s
  | Event.clearEntry => clear s
  | Event.clearAllEv => clearAll s
  | Event.back => backspace s

/-- The state built by the constructor: the creation field values followed
by the constructor's `updateDisplay()` call. -/
def initState : CalcState :=
  updateDisplay
    { currentInput := "0", previousInput := none, operator := none,
      waitingForOperand := false, justCalculated := false,
      displayPrimary := "", displaySecondary := "", primaryError := false }

/-- Run the engine from creation over a list of events. -/
def run (es : List Event) : CalcState := es.foldl step initState

/-- A state the engine can actually be in. -/
def Reachable (s : CalcState) : Prop := ∃ es, run es = s

/-- Projection onto the five fields of the spec's `CalculatorState` data
model (section 3); the two display strings are engine outputs for the
renderer, not data-model fields. -/
structure CoreState where
  currentInput : String
  previousInput : Option (Option ℚ)
  operator : Option Op
  waitingForOperand : Bool
  justCalculated : Bool
deriving DecidableEq

/-- The data-model part of a calculator state. -/
def coreOf (s : CalcState) : CoreState :=
  { currentInput := s.currentInput, previousInput := s.previousInput,
    operator := s.operator, waitingForOperand := s.waitingForOperand,
    justCalculated := s.justCalculated }

/-- A digit or decimal-point entry, the input alphabet of the
operator-free entry claims. -/
inductive DInput where
  | digit (d : Fin 10)
  | point
deriving DecidableEq

/-- The engine event a digit/decimal-point entry denotes. -/
def dinEvent : DInput → Event
  | DInput.digit d => Event.digit d
  | DInput.point => Event.point

/-- The character a digit/decimal-point entry contributes. -/
def dinChar : DInput → Char
  | DInput.digit d => digitChar d
  | DInput.point => '.'

/-- Drop every decimal point after the first (the flag records whether a
point has been kept already). -/
def dropLaterPoints : List DInput → Bool → List DInput
  | [], _ => []
  | DInput.point :: r, true => dropLaterPoints r true
  | DInput.point :: r, false => DInput.point :: dropLaterPoints r true
  | DInput.digit d :: r, seen => DInput.digit d :: dropLaterPoints r seen

/-- Modelled from the spec's words (section 8, first property), read
literally: the result is the left-to-right concatenation of the inputs with
decimal points after the first silently ignored, and with the initial
display `"0"` replaced by the first digit — so the leading `"0"` survives
only when the sequence starts with a decimal point (or is empty). -/
def specConcatRule (es : List DInput) : String :=
  let cat := String.mk ((dropLaterPoints es false).map dinChar)
  match es with
  | DInput.digit _ :: _ => cat
  | _ => "0" ++ cat

/-- One digit/decimal-point entry applied to an accumulator string, the way
`inputNumber` / `inputDecimal` treat `currentInput` in their final branch:
a digit replaces the string while it is exactly `"0"` and appends
otherwise; a decimal point appends when no `'.'` is present yet. -/
def accumStep (acc : String) : DInput → String
  | DInput.digit d =>
    if acc = "0" then String.mk [digitChar d] else acc ++ String.mk [digitChar d]
  | DInput.point =>
    if acc.data.contains '.' then acc else acc ++ "."

/-- The concatenation rule as amended: fold `accumStep` from `"0"`. -/
def amendedAccum (es : List DInput) : String := es.foldl accumStep "0"

/-- Modelled from the spec's words (section 3): a syntactically valid,
possibly partial, decimal numeral — optionally signed, made of digits and
at most one decimal point, containing at least one digit. -/
def validNumeral (s : String) : Bool :=
  let cs : List Char :=
    match s.data with
    | '-' :: r => r
    | l => l
  cs.all (fun c => c.isDigit || c == '.') && decide (cs.count '.' ≤ 1) &&
    cs.any (fun c => c.isDigit)

/-- No redundant leading zero: the string does not begin with `'0'`
immediately followed by another digit. -/
def noLeadZero (l : List Char) : Bool :=
  match l with
  | c0 :: c1 :: _ => !(c0 == '0' && c1.isDigit)
  | _ => true

/-- The event trace `5, add, 3, add, 2, equals` of the chained-evaluation
property. -/
def chainTrace : List Event :=
  [Event.digit 5, Event.oper Op.add, Event.digit 3, Event.oper Op.add,
   Event.digit 2, Event.equals]

/-- The event trace entering `0.1`, `add`, `0.2`, `equals`. -/
def pointOneTrace : List Event :=
  [Event.point, Event.digit 1, Event.oper Op.add, Event.digit 0, Event.point,
   Event.digit 2, Event.equals]

/-- The event trace `5, subtract, 7, subtract, backspace`: the second
`subtract` stores the eager result `-2` into `currentInput`, and the
backspace then strips the digit, leaving a bare `"-"`. -/
def minusTrace : List Event :=
  [Event.digit 5, Event.oper Op.subtract, Event.digit 7, Event.oper Op.subtract,
   Event.back]

/-- A state about to divide `5` by the freshly typed `0`. -/
def errState : CalcState :=
  { currentInput := "0", previousInput := some (some 5), operator := some Op.divide,
    waitingForOperand := false, justCalculated := false, displayPrimary := "0",
    displaySecondary := "5 ÷", primaryError := false }

/-- A state whose `currentInput` does not parse as a number, with a pending
operator and committed previous operand, so that evaluation would fail with
the `NaN` check. -/
def nanState : CalcState :=
  { currentInput := "x", previousInput := some (some 5), operator := some Op.add,
    waitingForOperand := false, justCalculated := false, displayPrimary := "5",
    displaySecondary := "", primaryError := false }

/-- A state about to add `3` to `5`. -/
def addState : CalcState :=
  { currentInput := "3", previousInput := some (some 5), operator := some Op.add,
    waitingForOperand := false, justCalculated := false, displayPrimary := "3",
    displaySecondary := "5 +", primaryError := false }

/-- The binary rational operation each operator denotes (the four arms of
the `switch` in `performCalculation`). -/
def ratApply : Op → ℚ → ℚ → ℚ
  | Op.add, a, b => a + b
  | Op.subtract, a, b => a - b
  | Op.multiply, a, b => a * b
  | Op.divide, a, b => a / b

/-- Every `clearAll` call lands exactly in the creation state. -/
theorem clearAll_eq_initState (s : CalcState) : clearAll s = initState := rfl

/-- C7: after any sequence of events whatsoever, invoking `clearAll` puts
the state back to exactly the creation values: `currentInput = "0"`,
`previousOperand` unset, no pending operator, `awaitingOperand` and
`justCompleted` false, secondary display cleared and primary display
showing the formatted `"0"` — i.e. the state equals `initState`. -/
theorem claim7_clearAll_restores_creation (es : List Event) :
    run (es ++ [Event.clearAllEv]) = initState := by
  rw [run, List.foldl_append]
  exact clearAll_eq_initState _

/-- C4: chained operator entry evaluates eagerly left-to-right without
precedence: after `5, add, 3, add` the intermediate result `8` is already
stored in both `previousOperand` and `currentInput`, and the full trace
`5, add, 3, add, 2, equals` yields `10` on the primary display. -/
theorem claim4_chained_eager_eval :
    (run (chainTrace.take 4)).previousInput = some (some 8) ∧
    (run (chainTrace.take 4)).currentInput = "8" ∧
    (run chainTrace).displayPrimary = "10" ∧
    (run chainTrace).currentInput = "10" := by decide

/-- C8: `clear` (the spec's `clearEntry`) resets `currentInput` to `"0"`
and leaves `previousOperand` and `pendingOperator` untouched; when
`currentInput` is already `"0"` it is a no-op on the data-model state (the
five `CalculatorState` fields of spec section 3; the displays are renderer
outputs, refreshed on every call). -/
theorem claim8_clear_entry (s : CalcState) :
    (clear s).currentInput = "0" ∧
    (clear s).previousInput = s.previousInput ∧
    (clear s).operator = s.operator ∧
    (s.currentInput = "0" → coreOf (clear s) = coreOf s) := by
  refine ⟨rfl, rfl, rfl, fun h => ?_⟩
  simp [coreOf, clear, updateDisplay, h]

/-- C8 witness: the clear-entry no-op contract at the concrete state
`errState`, whose `currentInput` is `"0"`. -/
theorem claim8_clear_entry_witness :
    errState.currentInput = "0" ∧ coreOf (clear errState) = coreOf errState :=
  ⟨rfl, (claim8_clear_entry errState).2.2.2 rfl⟩

/-- With `justCalculated` false and `currentInput = "0"`, iterated
backspace never leaves the floor `"0"`. -/
theorem backspace_iterate_zero :
    ∀ (n : ℕ) (s : CalcState), s.justCalculated = false → s.currentInput = "0" →
      (Nat.iterate backspace n s).currentInput = "0" := by
  intro n
  induction n with
  | zero => intro s _ h0; exact h0
  | succ k ih =>
    intro s hj h0
    have hb : backspace s = updateDisplay { s with currentInput := "0" } := by
      unfold backspace
      rw [hj, h0]
      rfl
    show (Nat.iterate backspace k (backspace s)).currentInput = "0"
    rw [hb]
    exact ih _ hj rfl

/-- C9: backspace is idempotent at the floor — with `justCalculated` false,
any number of repeated backspaces from `currentInput = "0"` always yields
`"0"`; and whenever removing the last character would leave the string
empty (length at most one), `backspace` sets `currentInput` to `"0"`
instead of the empty string. -/
theorem claim9_backspace_floor (s : CalcState) (n : ℕ)
    (hj : s.justCalculated = false) :
    (s.currentInput = "0" → (Nat.iterate backspace n s).currentInput = "0") ∧
    (s.currentInput.length ≤ 1 → (backspace s).currentInput = "0") := by
  refine ⟨fun h0 => backspace_iterate_zero n s hj h0, fun hlen => ?_⟩
  have hlt : ¬ (1 < s.currentInput.length) := by omega
  unfold backspace
  rw [hj]
  simp [hlt, updateDisplay]

/-- C9 witness: three backspaces on the freshly created state keep
`currentInput = "0"`, and a single backspace there (length one) floors to
`"0"`. -/
theorem claim9_backspace_floor_witness :
    initState.justCalculated = false ∧ initState.currentInput = "0" ∧
    initState.currentInput.length ≤ 1 ∧
    (Nat.iterate backspace 3 initState).currentInput = "0" ∧
    (backspace initState).currentInput = "0" :=
  ⟨rfl, rfl, by decide, (claim9_backspace_floor initState 3 rfl).1 rfl,
    (claim9_backspace_floor initState 3 rfl).2 (by decide)⟩

/-- Evaluation with an unparseable operand hits the `isNaN` early return:
`null` result, state untouched, no display change. -/
theorem performCalculation_nan (s : CalcState)
    (h : s.previousInput = some none ∨ parseFloat s.currentInput = none) :
    performCalculation s = (s, none) := by
  rcases h with h | h
  · unfold performCalculation
    rw [h]
  · rcases hp : s.previousInput with _ | v
    · unfold performCalculation
      rw [hp]
    · rcases v with _ | q
      · unfold performCalculation
        rw [hp]
      · unfold performCalculation
        rw [hp, h]

/-- C2 counterexample: at the concrete state `nanState` (pending `add`,
previous operand `5`, `currentInput = "x"` which parses to `NaN`,
`awaitingOperand` false), the equals handler fails the `NaN` check but the
engine does NOT produce the error display contract: the state, displays
included, is completely unchanged and the primary display is not
`"Error"`. -/
theorem claim2_cex_nan_silent :
    parseFloat nanState.currentInput = none ∧
    nanState.operator.isSome = true ∧
    nanState.previousInput.isSome = true ∧
    nanState.waitingForOperand = false ∧
    calculate nanState = nanState ∧
    (calculate nanState).displayPrimary ≠ "Error" := by decide

/-- C2 amended: when evaluation fails the `NaN` parse check during the
operator or the equals handler, the triggering operation short-circuits
leaving the entire state — numeric fields and both displays — unchanged;
no error display is produced (unlike division by zero). -/
theorem claim2_amended_nan_short_circuit (s : CalcState) (op : Op)
    (hnan : s.previousInput = some none ∨ parseFloat s.currentInput = none) :
    calculate s = s ∧
    (s.previousInput.isSome = true → s.operator.isSome = true →
      s.waitingForOperand = false → handleOperator op s = s) := by
  have hpc := performCalculation_nan s hnan
  constructor
  · unfold calculate
    split
    · rw [hpc]
    · rfl
  · intro hprev hop hw
    obtain ⟨v, hv⟩ := Option.isSome_iff_exists.mp hprev
    unfold handleOperator
    rw [hv, hpc]
    simp [hop, hw, hv]

/-- C2-amended witness: the silent `NaN` short-circuit evaluated at the
concrete state `nanState`. -/
theorem claim2_amended_witness :
    (nanState.previousInput = some none ∨ parseFloat nanState.currentInput = none) ∧
    calculate nanState = nanState ∧ handleOperator Op.add nanState = nanState := by
  have h : nanState.previousInput = some none ∨ parseFloat nanState.currentInput = none :=
    Or.inr (by decide)
  exact ⟨h, (claim2_amended_nan_short_circuit nanState Op.add h).1,
    (claim2_amended_nan_short_circuit nanState Op.add h).2 rfl rfl rfl⟩

/-- Division-by-zero evaluation: at a state with pending `divide`, a
numeric previous operand and `currentInput` parsing to exactly zero,
`performCalculation` calls `showError` and returns `null`. -/
theorem performCalculation_div_zero (s : CalcState) (p : ℚ)
    (hop : s.operator = some Op.divide)
    (hprev : s.previousInput = some (some p))
    (hcur : parseFloat s.currentInput = some 0) :
    performCalculation s = (showError "Cannot divide by zero" s, none) := by
  unfold performCalculation
  rw [hprev, hcur, hop]
  rfl

/-- C1: an evaluation triggered by the equals handler or the operator
handler that fails with division by zero (pending operator `divide`,
numeric previous operand, `currentInput` parsing to exactly zero) sets the
primary text to `"Error"` and the secondary text to the fixed non-empty
human-readable message, and leaves `currentInput`, `previousOperand` and
`pendingOperator` unchanged; `justCompleted` is not set. -/
theorem claim1_div_zero_error (s : CalcState) (nextOp : Op) (p : ℚ)
    (hop : s.operator = some Op.divide)
    (hprev : s.previousInput = some (some p))
    (hcur : parseFloat s.currentInput = some 0)
    (hw : s.waitingForOperand = false) :
    ((calculate s).displayPrimary = "Error" ∧
      (calculate s).displaySecondary = "Cannot divide by zero" ∧
      (calculate s).displaySecondary ≠ "" ∧
      (calculate s).currentInput = s.currentInput ∧
      (calculate s).previousInput = s.previousInput ∧
      (calculate s).operator = s.operator ∧
      (calculate s).justCalculated = s.justCalculated) ∧
    ((handleOperator nextOp s).displayPrimary = "Error" ∧
      (handleOperator nextOp s).displaySecondary = "Cannot divide by zero" ∧
      (handleOperator nextOp s).currentInput = s.currentInput ∧
      (handleOperator nextOp s).previousInput = s.previousInput ∧
      (handleOperator nextOp s).operator = s.operator ∧
      (handleOperator nextOp s).justCalculated = s.justCalculated) := by
  have hpc := performCalculation_div_zero s p hop hprev hcur
  have hcal : calculate s = showError "Cannot divide by zero" s := by
    unfold calculate
    rw [hop, hprev, hw, hpc]
    rfl
  have hho : handleOperator nextOp s = showError "Cannot divide by zero" s := by
    unfold handleOperator
    rw [hprev, hop, hw, hpc]
    rfl
  rw [hcal, hho]
  have hne : ("Cannot divide by zero" : String) ≠ "" := by decide
  exact ⟨⟨rfl, rfl, hne, rfl, rfl, rfl, rfl⟩, rfl, rfl, rfl, rfl, rfl, rfl⟩

/-- C1 witness: the division-by-zero error contract at the concrete state
`errState` (previous operand `5`, pending `divide`, `currentInput "0"`). -/
theorem claim1_div_zero_error_witness :
    errState.operator = some Op.divide ∧
    errState.previousInput = some (some 5) ∧
    parseFloat errState.currentInput = some 0 ∧
    errState.waitingForOperand = false ∧
    (calculate errState).displayPrimary = "Error" ∧
    (handleOperator Op.add errState).displaySecondary = "Cannot divide by zero" := by
  refine ⟨rfl, rfl, by decide, rfl, ?_, ?_⟩
  · exact (claim1_div_zero_error errState Op.add 5 rfl rfl (by decide) rfl).1.1
  · exact (claim1_div_zero_error errState Op.add 5 rfl rfl (by decide) rfl).2.2.1

/-- C6: every successful evaluation returns the exact operation result put
through the rounding step `round((value + EPSILON) * 1e8) / 1e8` with
`EPSILON = 2 ^ (-52)` (`Number.EPSILON`); and the concrete trace
`0.1, add, 0.2, equals` shows exactly `"0.3"` on the primary display (in
this exact-rational model the sum is exactly `3 / 10` and the rounding step
preserves it). -/
theorem claim6_rounding (s : CalcState) (op : Op) (p c : ℚ)
    (hop : s.operator = some op)
    (hprev : s.previousInput = some (some p))
    (hcur : parseFloat s.currentInput = some c)
    (hdz : op = Op.divide → c ≠ 0) :
    (performCalculation s).2 =
      some ((Rat.floor ((ratApply op p c + 1 / 2 ^ 52) * 100000000 + 1 / 2) : ℚ) / 100000000) ∧
    (run pointOneTrace).displayPrimary = "0.3" := by
  refine ⟨?_, by decide⟩
  unfold performCalculation
  rw [hprev, hcur, hop]
  cases op with
  | add => rfl
  | subtract => rfl
  | multiply => rfl
  | divide =>
    have hc : c ≠ 0 := hdz rfl
    simp [hc, roundResult, jsRound, jsEpsilon, ratApply]

/-- C6 witness: the rounding formula evaluated at the concrete state
`addState` (5 plus 3). -/
theorem claim6_rounding_witness :
    addState.operator = some Op.add ∧
    addState.previousInput = some (some 5) ∧
    parseFloat addState.currentInput = some 3 ∧
    (performCalculation addState).2 =
      some ((Rat.floor ((ratApply Op.add 5 3 + 1 / 2 ^ 52) * 100000000 + 1 / 2) : ℚ) / 100000000) := by
  refine ⟨rfl, rfl, by decide, ?_⟩
  exact (claim6_rounding addState Op.add 5 3 rfl rfl (by decide)
    (fun h => Op.noConfusion h)).1

/-- String equality is equality of the underlying character lists. -/
theorem string_eq_iff_data (s t : String) : s = t ↔ s.data = t.data := by
  constructor
  · intro h
    rw [h]
  · intro h
    cases s
    cases t
    exact congrArg String.mk h

/-- A string differs from `""` iff its character list is nonempty. -/
theorem string_ne_empty_iff (s : String) : s ≠ "" ↔ s.data ≠ [] :=
  not_congr (string_eq_iff_data s "")

/-- Concatenation acts as concatenation on the character lists. -/
theorem string_data_append (a b : String) : (a ++ b).data = a.data ++ b.data := by
  cases a
  cases b
  rfl

/-- The digit rendering is never empty (with nonzero fuel). -/
theorem natStrAux_ne_nil (fuel n : ℕ) : natStrAux (fuel + 1) n ≠ [] := by
  unfold natStrAux
  split
  · simp
  · simp

/-- A positive number renders with a nonzero leading digit. -/
theorem natStrAux_head_ne_zero :
    ∀ fuel n, n < fuel → 0 < n → ∃ c l, natStrAux fuel n = c :: l ∧ c ≠ '0' := by
  intro fuel
  induction fuel with
  | zero => intro n h _; omega
  | succ f ih =>
    intro n hn hpos
    unfold natStrAux
    by_cases h10 : n < 10
    · rw [if_pos h10]
      refine ⟨Char.ofNat (48 + n), [], rfl, ?_⟩
      interval_cases n <;> decide
    · rw [if_neg h10]
      have h1 : n / 10 < f := by omega
      have h2 : 0 < n / 10 := by omega
      obtain ⟨c, l, hcl, hc⟩ := ih (n / 10) h1 h2
      refine ⟨c, l ++ [Char.ofNat (48 + n % 10)], ?_, hc⟩
      rw [hcl]
      rfl

/-- A list starting with a character other than `'0'` has no redundant
leading zero. -/
theorem noLeadZero_cons_of_ne (c : Char) (l : List Char) (h : c ≠ '0') :
    noLeadZero (c :: l) = true := by
  cases l with
  | nil => rfl
  | cons b r => simp [noLeadZero, h]

/-- `noLeadZero` holds for every rendered number. -/
theorem noLeadZero_natStr_cons (n : ℕ) (rest : List Char)
    (hrest : noLeadZero ('0' :: rest) = true) :
    noLeadZero ((natStr n).data ++ rest) = true := by
  rcases Nat.eq_zero_or_pos n with h0 | hpos
  · subst h0
    exact hrest
  · obtain ⟨c, l, hcl, hc⟩ := natStrAux_head_ne_zero (n + 1) n (by omega) hpos
    have : (natStr n).data = c :: l := hcl
    rw [this]
    exact noLeadZero_cons_of_ne c (l ++ rest) hc

/-- Appending a digit to a list other than `['0']` preserves the absence of
a redundant leading zero. -/
theorem noLeadZero_append_digit (l : List Char) (c : Char)
    (h : noLeadZero l = true) (h0 : l ≠ ['0']) :
    noLeadZero (l ++ [c]) = true := by
  cases l with
  | nil => rfl
  | cons a r =>
    cases r with
    | nil =>
      have ha : a ≠ '0' := fun hc => h0 (by rw [hc])
      simp [noLeadZero, ha]
    | cons b r2 => simpa [noLeadZero] using h

/-- Appending a decimal point preserves the absence of a redundant leading
zero (a point is not a digit). -/
theorem noLeadZero_append_point (l : List Char) (h : noLeadZero l = true) :
    noLeadZero (l ++ ['.']) = true := by
  cases l with
  | nil => rfl
  | cons a r =>
    cases r with
    | nil =>
      have hd : ('.' : Char).isDigit = false := by decide
      simp [noLeadZero, hd]
    | cons b r2 => simpa [noLeadZero] using h

/-- Dropping the last character preserves the absence of a redundant
leading zero. -/
theorem noLeadZero_dropLast (l : List Char) (h : noLeadZero l = true) :
    noLeadZero l.dropLast = true := by
  cases l with
  | nil => rfl
  | cons a r =>
    cases r with
    | nil => rfl
    | cons b r2 =>
      cases r2 with
      | nil => rfl
      | cons c r3 => simpa [noLeadZero, List.dropLast] using h

/-- The fixed-point rendering is never the empty string. -/
theorem renderFixed8_data_ne_nil (q : ℚ) : (renderFixed8 q).data ≠ [] := by
  unfold renderFixed8
  dsimp only
  split
  · simp
  · split
    · exact natStrAux_ne_nil _ _
    · simp

/-- A rendered number alone has no redundant leading zero. -/
theorem noLeadZero_natStr (n : ℕ) : noLeadZero (natStr n).data = true := by
  have h := noLeadZero_natStr_cons n [] rfl
  simpa using h

/-- The fixed-point rendering never has a redundant leading zero. -/
theorem noLeadZero_renderFixed8 (q : ℚ) : noLeadZero (renderFixed8 q).data = true := by
  unfold renderFixed8
  dsimp only
  split
  · exact noLeadZero_cons_of_ne _ _ (by decide)
  · split
    · exact noLeadZero_natStr _
    · refine noLeadZero_natStr_cons _ _ ?_
      have hd : ('.' : Char).isDigit = false := by decide
      simp [noLeadZero, hd]

/-- Refreshing the primary display does not touch `currentInput`. -/
theorem currentInput_updateDisplay (s : CalcState) :
    (updateDisplay s).currentInput = s.currentInput := rfl

/-- Refreshing the secondary display does not touch `currentInput`. -/
theorem currentInput_updateSecondary (b : Bool) (s : CalcState) :
    (updateSecondaryDisplay b s).currentInput = s.currentInput := by
  unfold updateSecondaryDisplay
  cases ho : s.operator <;> cases hp : s.previousInput <;> simp [ho, hp]
  split <;> rfl

/-- The unconditional tail of the operator handler does not touch
`currentInput`. -/
theorem currentInput_operatorTail (op : Op) (s : CalcState) :
    (operatorTail op s).currentInput = s.currentInput := by
  unfold operatorTail
  rw [currentInput_updateDisplay, currentInput_updateSecondary]

/-- The state component of `performCalculation` is either untouched or the
`showError` state. -/
theorem performCalculation_fst (s : CalcState) :
    (performCalculation s).1 = s ∨
    (performCalculation s).1 = showError "Cannot divide by zero" s := by
  unfold performCalculation
  cases hp : s.previousInput with
  | none => left; rfl
  | some v =>
    cases v with
    | none => left; rfl
    | some p =>
      cases hc : parseFloat s.currentInput with
      | none => left; rfl
      | some c =>
        cases ho : s.operator with
        | none => left; rfl
        | some op =>
          cases op with
          | add => left; rfl
          | subtract => left; rfl
          | multiply => left; rfl
          | divide =>
            by_cases h0 : c = 0
            · right
              simp [h0]
            · left
              simp [h0]

/-- The `currentInput` left by the operator handler: either the old string
or a rendered result. -/
theorem currentInput_handleOperator (op : Op) (s : CalcState) :
    (handleOperator op s).currentInput = s.currentInput ∨
    ∃ q, (handleOperator op s).currentInput = renderFixed8 q := by
  unfold handleOperator
  split
  · left
    rw [currentInput_operatorTail]
  · split
    · rcases hpc : performCalculation s with ⟨s1, r⟩
      cases r with
      | none =>
        left
        have h1 : s1 = (performCalculation s).1 := by rw [hpc]
        rcases performCalculation_fst s with h | h
        · simp [hpc]
          rw [h1, h]
        · simp [hpc]
          rw [h1, h]
          rfl
      | some q =>
        right
        refine ⟨q, ?_⟩
        simp [hpc]
        rw [currentInput_operatorTail]
    · left
      rw [currentInput_operatorTail]

/-- The `currentInput` left by the equals handler: either the old string or
a rendered result. -/
theorem currentInput_calculate (s : CalcState) :
    (calculate s).currentInput = s.currentInput ∨
    ∃ q, (calculate s).currentInput = renderFixed8 q := by
  unfold calculate
  split
  · rcases hpc : performCalculation s with ⟨s1, r⟩
    cases r with
    | none =>
      left
      have h1 : s1 = (performCalculation s).1 := by rw [hpc]
      rcases performCalculation_fst s with h | h
      · simp [hpc]
        rw [h1, h]
      · simp [hpc]
        rw [h1, h]
        rfl
    | some q =>
      right
      refine ⟨q, ?_⟩
      simp [hpc]
      rfl
  · left
    rfl

/-- The `currentInput` left by a digit entry: a fresh one-character string,
or the old string with the digit appended (the latter only when the old
string was not exactly `"0"`). -/
theorem currentInput_inputNumber (c : Char) (s : CalcState) :
    (inputNumber c s).currentInput = String.mk [c] ∨
    ((inputNumber c s).currentInput = s.currentInput ++ String.mk [c] ∧
      s.currentInput ≠ "0") := by
  unfold inputNumber
  split
  · left
    rfl
  · split
    · left
      rfl
    · split
      · left
        rfl
      · next hne =>
        right
        exact ⟨rfl, hne⟩

/-- The `currentInput` left by a decimal-point entry: `"0."`, unchanged, or
with `'.'` appended. -/
theorem currentInput_inputDecimal (s : CalcState) :
    (inputDecimal s).currentInput = "0." ∨
    (inputDecimal s).currentInput = s.currentInput ∨
    (inputDecimal s).currentInput = s.currentInput ++ "." := by
  unfold inputDecimal
  split
  · left
    rfl
  · split
    · left
      rfl
    · split
      · right
        left
        rfl
      · right
        right
        rfl

/-- The `currentInput` left by backspace: unchanged, the floor `"0"`, or
the old string with its last character dropped (only for length above
one). -/
theorem currentInput_backspace (s : CalcState) :
    (backspace s).currentInput = s.currentInput ∨
    (backspace s).currentInput = "0" ∨
    ((backspace s).currentInput = String.mk s.currentInput.data.dropLast ∧
      1 < s.currentInput.length) := by
  unfold backspace
  split
  · left
    rfl
  · split
    · next hlen =>
      right
      right
      exact ⟨rfl, hlen⟩
    · right
      left
      rfl

/-- Every event preserves non-emptiness of `currentInput`. -/
theorem step_ne_empty (s : CalcState) (e : Event) (h : s.currentInput ≠ "") :
    (step s e).currentInput ≠ "" := by
  cases e with
  | digit d =>
    show (inputNumber (digitChar d) s).currentInput ≠ ""
    rcases currentInput_inputNumber (digitChar d) s with h1 | ⟨h1, _⟩
    · rw [h1, string_ne_empty_iff]
      simp
    · rw [h1, string_ne_empty_iff, string_data_append]
      simp
  | point =>
    show (inputDecimal s).currentInput ≠ ""
    rcases currentInput_inputDecimal s with h1 | h1 | h1
    · rw [h1]
      decide
    · rw [h1]
      exact h
    · rw [h1, string_ne_empty_iff, string_data_append]
      simp
  | oper o =>
    show (handleOperator o s).currentInput ≠ ""
    rcases currentInput_handleOperator o s with h1 | ⟨q, h1⟩
    · rw [h1]
      exact h
    · rw [h1, string_ne_empty_iff]
      exact renderFixed8_data_ne_nil q
  | equals =>
    show (calculate s).currentInput ≠ ""
    rcases currentInput_calculate s with h1 | ⟨q, h1⟩
    · rw [h1]
      exact h
    · rw [h1, string_ne_empty_iff]
      exact renderFixed8_data_ne_nil q
  | clearEntry =>
    have h1 : (clear s).currentInput = "0" := rfl
    show (clear s).currentInput ≠ ""
    rw [h1]
    decide
  | clearAllEv =>
    have h1 : (clearAll s).currentInput = "0" := rfl
    show (clearAll s).currentInput ≠ ""
    rw [h1]
    decide
  | back =>
    show (backspace s).currentInput ≠ ""
    rcases currentInput_backspace s with h1 | h1 | ⟨h1, hlen⟩
    · rw [h1]
      exact h
    · rw [h1]
      decide
    · rw [h1, string_ne_empty_iff]
      intro hnil
      have hlen2 := congrArg List.length hnil
      rw [List.length_dropLast] at hlen2
      have hgt : 1 < s.currentInput.data.length := hlen
      simp at hlen2
      omega

/-- Every event preserves the absence of a redundant leading zero in
`currentInput`. -/
theorem step_noLead (s : CalcState) (e : Event)
    (h : noLeadZero s.currentInput.data = true) :
    noLeadZero (step s e).currentInput.data = true := by
  cases e with
  | digit d =>
    show noLeadZero (inputNumber (digitChar d) s).currentInput.data = true
    rcases currentInput_inputNumber (digitChar d) s with h1 | ⟨h1, hne⟩
    · rw [h1]
      rfl
    · rw [h1, string_data_append]
      refine noLeadZero_append_digit _ _ h ?_
      intro hl
      exact hne ((string_eq_iff_data _ _).mpr hl)
  | point =>
    show noLeadZero (inputDecimal s).currentInput.data = true
    rcases currentInput_inputDecimal s with h1 | h1 | h1
    · rw [h1]
      decide
    · rw [h1]
      exact h
    · rw [h1, string_data_append]
      exact noLeadZero_append_point _ h
  | oper o =>
    show noLeadZero (handleOperator o s).currentInput.data = true
    rcases currentInput_handleOperator o s with h1 | ⟨q, h1⟩
    · rw [h1]
      exact h
    · rw [h1]
      exact noLeadZero_renderFixed8 q
  | equals =>
    show noLeadZero (calculate s).currentInput.data = true
    rcases currentInput_calculate s with h1 | ⟨q, h1⟩
    · rw [h1]
      exact h
    · rw [h1]
      exact noLeadZero_renderFixed8 q
  | clearEntry =>
    show noLeadZero (clear s).currentInput.data = true
    rfl
  | clearAllEv =>
    show noLeadZero (clearAll s).currentInput.data = true
    rfl
  | back =>
    show noLeadZero (backspace s).currentInput.data = true
    rcases currentInput_backspace s with h1 | h1 | ⟨h1, _⟩
    · rw [h1]
      exact h
    · rw [h1]
      rfl
    · rw [h1]
      exact noLeadZero_dropLast _ h

/-- Every invariant that holds at creation and is preserved by each event
holds in every reachable state. -/
theorem reachable_induct (P : CalcState → Prop) (hinit : P initState)
    (hstep : ∀ s e, P s → P (step s e)) : ∀ s, Reachable s → P s := by
  have haux : ∀ (es : List Event) (t : CalcState), P t → P (List.foldl step t es) := by
    intro es
    induction es with
    | nil => intro t ht; exact ht
    | cons e r ih => intro t ht; exact ih _ (hstep _ _ ht)
  rintro s ⟨es, rfl⟩
  exact haux es initState hinit

/-- C3 counterexample: the reachable trace `5, subtract, 7, subtract,
backspace` leaves `currentInput = "-"` — the second `subtract` eagerly
stores the result string `"-2"` into `currentInput` with `justCalculated`
still false, and backspace strips the digit.  The bare minus sign is not a
valid (even partial) decimal numeral and does not parse (`parseFloat`
yields `NaN`), so a malformed numeral does persist in a reachable state. -/
theorem claim3_cex_bare_minus :
    Reachable (run minusTrace) ∧
    (run minusTrace).currentInput = "-" ∧
    validNumeral (run minusTrace).currentInput = false ∧
    parseFloat (run minusTrace).currentInput = none :=
  ⟨⟨minusTrace, rfl⟩, by decide, by decide, by decide⟩

/-- C3 amended: in every reachable state `currentInput` is a non-empty
string (every operation, backspace included, preserves non-emptiness);
full syntactic validity is not invariant, because backspace applied to a
negative computed result string can leave a bare minus sign. -/
theorem claim3_amended_nonempty (s : CalcState) (h : Reachable s) :
    s.currentInput ≠ "" :=
  reachable_induct (fun t => t.currentInput ≠ "") (by decide) step_ne_empty s h

/-- C3-amended witness: non-emptiness at the reachable state reached by the
chained trace. -/
theorem claim3_amended_nonempty_witness :
    Reachable (run chainTrace) ∧ (run chainTrace).currentInput ≠ "" :=
  ⟨⟨chainTrace, rfl⟩, claim3_amended_nonempty (run chainTrace) ⟨chainTrace, rfl⟩⟩

/-- C10: in every reachable state, `currentInput` never begins with the
character `'0'` immediately followed by another digit — digit entry
replaces a lone `"0"` instead of appending to it, and rendered result
strings never carry a redundant leading zero. -/
theorem claim10_no_redundant_leading_zero (s : CalcState) (h : Reachable s) :
    noLeadZero s.currentInput.data = true :=
  reachable_induct (fun t => noLeadZero t.currentInput.data = true) (by decide)
    step_noLead s h

/-- C10 witness: the invariant at the reachable state reached by the
trace entering `0.1 + 0.2 =`. -/
theorem claim10_no_redundant_leading_zero_witness :
    Reachable (run pointOneTrace) ∧
    noLeadZero (run pointOneTrace).currentInput.data = true :=
  ⟨⟨pointOneTrace, rfl⟩,
    claim10_no_redundant_leading_zero (run pointOneTrace) ⟨pointOneTrace, rfl⟩⟩

/-- With both flags down, a digit entry is exactly the accumulator step. -/
theorem inputNumber_flags (c : Char) (s : CalcState)
    (hw : s.waitingForOperand = false) (hj : s.justCalculated = false) :
    inputNumber c s =
      updateDisplay { s with currentInput :=
        if s.currentInput = "0" then String.mk [c] else s.currentInput ++ String.mk [c] } := by
  unfold inputNumber
  rw [hw, hj]
  rfl

/-- With both flags down, a decimal-point entry is exactly the accumulator
step. -/
theorem inputDecimal_flags (s : CalcState)
    (hw : s.waitingForOperand = false) (hj : s.justCalculated = false) :
    inputDecimal s =
      if s.currentInput.data.contains '.' then updateDisplay s
      else updateDisplay { s with currentInput := s.currentInput ++ "." } := by
  unfold inputDecimal
  rw [hw, hj]
  rfl

/-- Folding digit/decimal-point events through the engine from a state with
both flags down only rewrites `currentInput`, by the accumulator rule. -/
theorem foldDigits (es : List DInput) : ∀ (s : CalcState),
    s.waitingForOperand = false → s.justCalculated = false →
    (List.foldl step s (es.map dinEvent)).currentInput =
      List.foldl accumStep s.currentInput es := by
  induction es with
  | nil => intro s _ _; rfl
  | cons e r ih =>
    intro s hw hj
    cases e with
    | digit d =>
      have hstep : step s (dinEvent (DInput.digit d)) =
          updateDisplay { s with currentInput := accumStep s.currentInput (DInput.digit d) } :=
        inputNumber_flags (digitChar d) s hw hj
      show (List.foldl step (step s (dinEvent (DInput.digit d))) (r.map dinEvent)).currentInput =
        List.foldl accumStep (accumStep s.currentInput (DInput.digit d)) r
      rw [hstep]
      exact ih _ hw hj
    | point =>
      have hstep := inputDecimal_flags s hw hj
      show (List.foldl step (step s (dinEvent DInput.point)) (r.map dinEvent)).currentInput =
        List.foldl accumStep (accumStep s.currentInput DInput.point) r
      by_cases hc : s.currentInput.data.contains '.'
      · rw [show step s (dinEvent DInput.point) = updateDisplay s from by
          show inputDecimal s = updateDisplay s
          rw [hstep, if_pos hc]]
        have hacc : accumStep s.currentInput DInput.point = s.currentInput := by
          unfold accumStep
          rw [if_pos hc]
        rw [hacc]
        exact ih _ hw hj
      · rw [show step s (dinEvent DInput.point) =
            updateDisplay { s with currentInput := s.currentInput ++ "." } from by
          show inputDecimal s = updateDisplay { s with currentInput := s.currentInput ++ "." }
          rw [hstep, if_neg hc]]
        have hacc : accumStep s.currentInput DInput.point = s.currentInput ++ "." := by
          unfold accumStep
          rw [if_neg hc]
        rw [hacc]
        exact ih _ hw hj

/-- C5 counterexample: for the input sequence `0, 7` the engine yields
`"7"` (each digit entered while the display still reads `"0"` replaces it),
while the literal concatenation rule — the leading `"0"` replaced by the
first digit, later inputs appended — yields `"07"`. -/
theorem claim5_cex_leading_zeros :
    (run (([DInput.digit 0, DInput.digit 7]).map dinEvent)).currentInput = "7" ∧
    specConcatRule [DInput.digit 0, DInput.digit 7] = "07" ∧
    (run (([DInput.digit 0, DInput.digit 7]).map dinEvent)).currentInput ≠
      specConcatRule [DInput.digit 0, DInput.digit 7] :=
  ⟨by decide, by decide, by decide⟩

/-- C5 amended: for every sequence of digit and decimal-point inputs from
the initial state, `currentInput` equals the left-to-right accumulation in
which a digit replaces the string while it still reads exactly `"0"` (so
leading zeros collapse) and appends otherwise, and any decimal point after
the first is silently ignored. -/
theorem claim5_amended_accumulation (es : List DInput) :
    (run (es.map dinEvent)).currentInput = amendedAccum es :=
  foldDigits es initState rfl rfl

end AC
